import Mathlib

/-!
Verification development for the school-enrollment statistics program
(`school_data.py`).  The Python code is shallowly embedded:

* numeric cells are `Option ℚ`, with `none` standing for a missing value
  (numpy's NaN); rationals make every reduction exact;
* Python dictionaries are insertion-ordered association lists where an
  assignment to an existing key updates the value in place (keeping the
  key's original position), matching CPython semantics;
* fallible Python calls return `Except PyErr`, where `PyErr` enumerates the
  exception classes the embedded fragment can raise;
* `int(s)` on a string is modelled by `pyInt` (optional surrounding
  whitespace, an optional single sign, decimal digits with optional single
  underscores between digits), and `str` on an integer by `pyStr`.
-/

/-- A numeric cell of the enrollment array: `none` models numpy NaN /
a missing value, `some q` a finite numeric value. -/
abbrev Cell := Option ℚ

/-- The Python exception classes relevant to the embedded code. -/
inductive PyErr : Type where
  | valueError (msg : String) : PyErr
  | typeError (msg : String) : PyErr
  | keyError (msg : String) : PyErr
  | indexError (msg : String) : PyErr
deriving DecidableEq, Repr

/-- Result of running an embedded Python computation. -/
abbrev Py (α : Type) := Except PyErr α

/-- Insertion-ordered dictionary, as CPython implements `dict`. -/
abbrev Dict (K V : Type) := List (K × V)

/-- Python `d[k] = v`: updating an existing key keeps its position and
replaces the value; a new key is appended at the end. -/
def dictInsert {K V : Type} [DecidableEq K] (d : Dict K V) (k : K) (v : V) : Dict K V :=
  if d.any (fun p => p.1 = k) then
    d.map (fun p => if p.1 = k then (k, v) else p)
  else
    d ++ [(k, v)]

/-- Python `d.get(k)` / `k in d` combined: the value stored at `k`, if any. -/
def dictGet? {K V : Type} [DecidableEq K] (d : Dict K V) (k : K) : Option V :=
  (d.find? (fun p => p.1 = k)).map (fun p => p.2)

/-- Python `list(d.values())`: values in key-insertion order. -/
def dictValues {K V : Type} (d : Dict K V) : List V :=
  d.map (fun p => p.2)

/-- Helper for `dropDuplicates`: fold that keeps the first occurrence of
each element, accumulating the retained prefix. -/
def ddAux {α : Type} [DecidableEq α] : List α → List α → List α
  | [], acc => acc
  | x :: xs, acc => if x ∈ acc then ddAux xs acc else ddAux xs (acc ++ [x])

/-- pandas `DataFrame.drop_duplicates()`: keep the first occurrence of each
row, preserving order. -/
def dropDuplicates {α : Type} [DecidableEq α] (l : List α) : List α :=
  ddAux l []

/-- An ASCII decimal digit, as accepted by Python `int`. -/
def isPyDigit (c : Char) : Bool :=
  48 ≤ c.toNat && c.toNat ≤ 57

/-- Whitespace stripped by Python `int` around a numeric literal. -/
def isPySpace (c : Char) : Bool :=
  c.toNat = 32 || c.toNat = 9 || c.toNat = 10 || c.toNat = 11 || c.toNat = 12 || c.toNat = 13

/-- Numeric value of a decimal digit character. -/
def digitVal (c : Char) : ℕ := c.toNat - 48

/-- The decimal digit character for `n < 10` (and `'9'` beyond). -/
def digitChar : ℕ → Char
  | 0 => '0' | 1 => '1' | 2 => '2' | 3 => '3' | 4 => '4'
  | 5 => '5' | 6 => '6' | 7 => '7' | 8 => '8' | _ => '9'

/-- Scan the digits of a decimal literal left to right, accumulating the
value; `prevUnd` records whether the previous character was an underscore
(Python allows a single `_` between digits, none leading, trailing or
doubled). -/
def digitsVal (acc : ℕ) (prevUnd : Bool) : List Char → Option ℕ
  | [] => if prevUnd then none else some acc
  | c :: cs =>
    if isPyDigit c then digitsVal (10 * acc + digitVal c) false cs
    else if c = '_' && !prevUnd then digitsVal acc true cs
    else none

/-- Parse an unsigned decimal literal: nonempty, starting with a digit. -/
def pyIntCore : List Char → Option ℕ
  | [] => none
  | c :: cs => if isPyDigit c then digitsVal 0 false (c :: cs) else none

/-- Parse an optionally signed decimal literal (no surrounding space). -/
def pyIntSigned : List Char → Option Int
  | [] => none
  | c :: rest =>
    if c = '-' then (pyIntCore rest).map (fun n => -(n : Int))
    else if c = '+' then (pyIntCore rest).map (fun n => (n : Int))
    else (pyIntCore (c :: rest)).map (fun n => (n : Int))

/-- Python `int(s)` for a string argument: strip surrounding whitespace,
an optional single sign, then a decimal literal; `none` means `int` raises
`ValueError`. -/
def pyInt (s : String) : Option Int :=
  pyIntSigned (((s.data.dropWhile isPySpace).reverse.dropWhile isPySpace).reverse)

/-- Decimal digits of `n`, most significant first; the first argument is
structural fuel (any fuel above `n` yields the digits). -/
def natStrAux : ℕ → ℕ → List Char
  | 0, _ => []
  | fuel + 1, n =>
    if n < 10 then [digitChar n]
    else natStrAux fuel (n / 10) ++ [digitChar (n % 10)]

/-- Decimal digits of a natural number, most significant first. -/
def natStr (n : ℕ) : List Char := natStrAux (n + 1) n

/-- Python `str` on an integer: decimal form with a leading `-` sign for
negative values. -/
def pyStr (c : Int) : String :=
  if c < 0 then ⟨'-' :: natStr c.natAbs⟩ else ⟨natStr c.toNat⟩

/-! ### The numpy reductions used by the program

`np.sum`, `np.mean`, `np.max`, `np.min` and `np.median` propagate NaN;
the `nan`-prefixed variants skip NaN entries.  `np.sum []` is `0`;
`np.mean []`, `np.median []`, `np.nanmean` / `np.nanmax` / `np.nanmin` of
an all-NaN input are NaN (`none`) — numpy emits only a RuntimeWarning. -/

/-- NaN-propagating addition of two cells. -/
def cellAdd : Cell → Cell → Cell
  | some x, some y => some (x + y)
  | _, _ => none

/-- NaN-propagating maximum of two cells. -/
def cellMax : Cell → Cell → Cell
  | some x, some y => some (max x y)
  | _, _ => none

/-- NaN-propagating minimum of two cells. -/
def cellMin : Cell → Cell → Cell
  | some x, some y => some (min x y)
  | _, _ => none

/-- Model of `np.sum`: NaN-propagating sum, `0` on the empty list. -/
def npSum (l : List Cell) : Cell :=
  l.foldl cellAdd (some 0)

/-- Model of `np.mean`: NaN-propagating arithmetic mean, NaN on the empty list. -/
def npMean (l : List Cell) : Cell :=
  if l.length = 0 then none
  else (npSum l).map (fun q => q / (l.length : ℚ))

/-- Model of `np.max`: NaN-propagating maximum (never applied to an empty array by
the program; the empty case is mapped to `none`). -/
def npMax (l : List Cell) : Cell :=
  match l with
  | [] => none
  | x :: xs => xs.foldl cellMax x

/-- Model of `np.min`: NaN-propagating minimum (empty case as in `npMax`). -/
def npMin (l : List Cell) : Cell :=
  match l with
  | [] => none
  | x :: xs => xs.foldl cellMin x

/-- Model of `np.nansum`: sum of the non-NaN entries, `0` if there are none. -/
def npNanSum (l : List Cell) : Cell :=
  some (l.filterMap id).sum

/-- Model of `np.nanmean`: mean of the non-NaN entries, NaN if there are none. -/
def npNanMean (l : List Cell) : Cell :=
  let xs := l.filterMap id
  if xs.length = 0 then none else some (xs.sum / (xs.length : ℚ))

/-- Model of `np.nanmax`: maximum of the non-NaN entries, NaN if there are none. -/
def npNanMax (l : List Cell) : Cell :=
  (l.filterMap id).max?

/-- Model of `np.nanmin`: minimum of the non-NaN entries, NaN if there are none. -/
def npNanMin (l : List Cell) : Cell :=
  (l.filterMap id).min?

/-- Model of `np.median` on a list of plain (non-NaN) values: middle element of the
sorted list, or the average of the two middle elements; NaN (`none`) on the
empty list, where numpy only warns. -/
def npMedian (l : List ℚ) : Option ℚ :=
  let s := l.mergeSort (fun a b => a ≤ b)
  if l.length = 0 then none
  else if l.length % 2 = 1 then s[l.length / 2]?
  else
    match s[l.length / 2 - 1]?, s[l.length / 2]? with
    | some a, some b => some ((a + b) / 2)
    | _, _ => none

/-! ### The embedded program (`school_data.py`)

A school slice (`data[:, i, :]`) is a list of rows, one per year, each row
listing the cells of the three grades.  The full reshaped array is kept as
its flat cell list of length 600 (`reshape` only reinterprets indices:
entry `(year, school, grade)` lives at `60*year + 3*school + grade`). -/

/-- The three-dimensional enrollment dataset together with the two school
dictionaries, as built by `SchoolData.__init__`. -/
structure SchoolData : Type where
  data : List Cell
  school_names_ids : Dict String Int
  school_ids_names : Dict Int String
deriving DecidableEq, Repr

/-- Body of `SchoolData.set_schools_and_ids`: drop duplicate
(name, code) rows keeping the first occurrence, then fill the two
dictionaries by straightforward assignment (no duplicate check — a repeated
key silently overwrites the stored value). -/
def set_schools_core (tbl : List (String × Int)) : Dict String Int × Dict Int String :=
  let u := dropDuplicates tbl
  (u.foldl (fun d p => dictInsert d p.1 p.2) [],
   u.foldl (fun d p => dictInsert d p.2 p.1) [])

/-- Model of `SchoolData.set_schools_and_ids`: builds the two dictionaries; none of
the pandas/dict operations involved can raise, so the call always returns. -/
def set_schools_and_ids (tbl : List (String × Int)) : Py (Dict String Int × Dict Int String) :=
  .ok (set_schools_core tbl)

/-- Model of `np.array` on a list of rows: a rectangular input yields the row-major
flat data; a ragged input raises `ValueError` (inhomogeneous shape). -/
def npArray2 (rows : List (List Cell)) : Py (List Cell) :=
  match rows with
  | [] => .ok []
  | r :: rs =>
    if rs.all (fun x => x.length = r.length) then .ok (r :: rs).flatten
    else .error (.valueError "setting an array element with a sequence. The requested array has an inhomogeneous shape.")

/-- Model of `.reshape((10, 20, 3))`: succeeds exactly when the array holds
`10 * 20 * 3 = 600` elements, whatever its current shape. -/
def reshape600 (flat : List Cell) : Py (List Cell) :=
  if flat.length = 600 then .ok flat
  else .error (.valueError "cannot reshape array of given size into shape (10,20,3)")

/-- The tensor-building part of `SchoolData.__init__`:
`np.array(data).reshape((10, 20, 3))`. -/
def npArrayReshape (rows : List (List Cell)) : Py (List Cell) :=
  (npArray2 rows).bind reshape600

/-- Model of `SchoolData.__init__`: reshape the stacked year rows and build the two
school dictionaries.  No validation relates the school table to the tensor. -/
def mkSchoolData (rows : List (List Cell)) (tbl : List (String × Int)) : Py SchoolData :=
  (npArrayReshape rows).bind fun flat =>
    .ok ⟨flat, (set_schools_core tbl).1, (set_schools_core tbl).2⟩

/-- Message of the `ValueError` raised by Python `int()` itself on a
non-numeric string. -/
def intErrMsg (s : String) : String :=
  "invalid literal for int() with base 10: '" ++ s ++ "'"

/-- The custom user-facing message of `look_up_school`. -/
def lookupFailMsg : String :=
  "ValueError: You MUST enter a VALID school name or code.\n"

/-- Model of `SchoolData.look_up_school`: exact name match first; otherwise coerce
the identifier with `int()` (whose own `ValueError` propagates) and match
against the code dictionary; otherwise raise the custom `ValueError`. -/
def look_up_school (d1 : Dict String Int) (d2 : Dict Int String) (s : String) : Py (String × Int) :=
  match dictGet? d1 s with
  | some c => .ok (s, c)
  | none =>
    match pyInt s with
    | none => .error (.valueError (intErrMsg s))
    | some n =>
      match dictGet? d2 n with
      | some nm => .ok (nm, n)
      | none => .error (.valueError lookupFailMsg)

/-- Model of `list(self.school_names_ids.values()).index(school_code)` inside
`SchoolData.get_school_data`: position of the first occurrence of the code
in the dictionary's value sequence; `list.index` raises `ValueError` when
the code is absent. -/
def positionOfCode (d1 : Dict String Int) (c : Int) : Py ℕ :=
  match (dictValues d1).findIdx? (fun v => v = c) with
  | some i => .ok i
  | none => .error (.valueError "is not in list")

/-- The `(10, 3)` slice `data[:, i, :]` of the flat 600-cell array. -/
def schoolSlice (d : List Cell) (i : ℕ) : List (List Cell) :=
  (List.range 10).map (fun y => (List.range 3).map (fun g => d.getD (60 * y + 3 * i + g) none))

/-- Model of `SchoolData.get_school_data`: locate the school column by the position
of its code among the dictionary values, then slice the tensor. -/
def get_school_data (o : SchoolData) (c : Int) : Py (List (List Cell)) :=
  (positionOfCode o.school_names_ids c).bind fun i => .ok (schoolSlice o.data i)

/-- Column `j` of a school slice (`school_data[:, j]`). -/
def sliceCol (sd : List (List Cell)) (j : ℕ) : List Cell :=
  sd.map (fun r => r.getD j none)

/-- Model of `Statistics.school_enrol_grade_means`: per-grade means across years. -/
def school_enrol_grade_means (sd : List (List Cell)) : Cell × Cell × Cell :=
  (npMean (sliceCol sd 0), npMean (sliceCol sd 1), npMean (sliceCol sd 2))

/-- Model of `Statistics.school_enrol_max_min`: extreme single-cell enrollments. -/
def school_enrol_max_min (sd : List (List Cell)) : Cell × Cell :=
  (npMax sd.flatten, npMin sd.flatten)

/-- Model of `Statistics.school_enrol_tot_per_year`: `np.sum(school_data, axis=1)`,
the per-year totals across the grade axis. -/
def school_enrol_tot_per_year (sd : List (List Cell)) : List Cell :=
  sd.map npSum

/-- Model of `Statistics.school_tot_ten_year`: sum of the per-year totals. -/
def school_tot_ten_year (sd : List (List Cell)) : Cell :=
  npSum (school_enrol_tot_per_year sd)

/-- Model of `Statistics.mean_tot_enrol`: mean of the per-year totals. -/
def mean_tot_enrol (sd : List (List Cell)) : Cell :=
  npMean (school_enrol_tot_per_year sd)

/-- The boolean-mask selection `school_data[school_data > 500]`: the cells
strictly greater than 500, in row-major order; a NaN cell compares false
and is dropped by the mask. -/
def over500 (sd : List (List Cell)) : List ℚ :=
  sd.flatten.filterMap (fun c =>
    match c with
    | some v => if 500 < v then some v else none
    | none => none)

/-- Model of `Statistics.median_over_500`: median of the masked selection.  On an
empty selection `np.median` returns NaN (`none`) with only a
RuntimeWarning, so the call always returns and never raises. -/
def median_over_500 (sd : List (List Cell)) : Py Cell :=
  .ok (npMedian (over500 sd))

/-- The year slice `data[y, :, :]` of the flat 600-cell array. -/
def yearSlice (d : List Cell) (y : ℕ) : List Cell :=
  (d.drop (60 * y)).take 60

/-- The grade-12 column of the latest year, `data[9, :, 2]`. -/
def grade12Row9 (d : List Cell) : List Cell :=
  (List.range 20).map (fun s => d.getD (540 + 3 * s + 2) none)

/-- Model of `Statistics.general_stats`: the five dataset-wide scalars, computed
with the NaN-aware reductions `np.nanmean`, `np.nansum`, `np.nanmax`,
`np.nanmin`. -/
def general_stats (o : SchoolData) : Py (Cell × Cell × Cell × Cell × Cell) :=
  .ok (npNanMean (yearSlice o.data 0),
       npNanMean (yearSlice o.data 9),
       npNanSum (grade12Row9 o.data),
       npNanMax o.data,
       npNanMin o.data)

/-! ### Dictionary lemmas -/

/-- Looking up after a Python dict assignment: the assigned key now yields
the new value, every other key is untouched. -/
theorem dictGet?_insert {K V : Type} [DecidableEq K] (d : Dict K V) (k' k : K) (v : V) :
    dictGet? (dictInsert d k' v) k = if k = k' then some v else dictGet? d k := by
  unfold dictInsert dictGet?
  by_cases hc : d.any (fun p => p.1 = k') = true
  · simp only [hc, if_true, List.find?_map]
    by_cases hk : k = k'
    · subst hk
      have hpred : ((fun p : K × V => decide (p.1 = k)) ∘ fun p : K × V => if p.1 = k then (k, v) else p)
          = fun p : K × V => decide (p.1 = k) := by
        funext q
        by_cases hq : q.1 = k <;> simp [hq]
      rw [hpred]
      rcases hf : List.find? (fun p : K × V => decide (p.1 = k)) d with _ | q
      · rw [List.find?_eq_none] at hf
        rw [List.any_eq_true] at hc
        obtain ⟨x, hx, hxk⟩ := hc
        exact absurd hxk (hf x hx)
      · have hq := List.find?_some hf
        simp only [decide_eq_true_eq] at hq
        simp [hq]
    · have hpred : ((fun p : K × V => decide (p.1 = k)) ∘ fun p : K × V => if p.1 = k' then (k', v) else p)
          = fun p : K × V => decide (p.1 = k) := by
        funext q
        by_cases hq : q.1 = k' <;> simp [hq, hk, Ne.symm hk]
      rw [hpred]
      rcases hf : List.find? (fun p : K × V => decide (p.1 = k)) d with _ | q
      · simp [hk]
      · have hq := List.find?_some hf
        simp only [decide_eq_true_eq] at hq
        have hqne : ¬(q.1 = k') := by
          intro h
          exact hk (hq ▸ h ▸ rfl)
        simp [hk, hq, hqne]
  · simp only [Bool.not_eq_true] at hc
    simp only [hc, Bool.false_eq_true, if_false, List.find?_append]
    by_cases hk : k = k'
    · subst hk
      have h1 : List.find? (fun p : K × V => decide (p.1 = k)) d = none := by
        rw [List.find?_eq_none]
        rw [List.any_eq_false] at hc
        exact hc
      simp [h1, List.find?]
    · have h2 : List.find? (fun p : K × V => decide (p.1 = k)) [(k', v)] = none := by
        simp [List.find?, Ne.symm hk]
      rcases hf : List.find? (fun p : K × V => decide (p.1 = k)) d with _ | q <;>
        simp [hf, h2, hk]

/-- Value found in a dictionary built by repeated assignment from a list of
entries: the last assignment to a key wins; keys never assigned fall back
to the initial dictionary. -/
theorem dictGet?_foldl {A K V : Type} [DecidableEq K] (f : A → K) (g : A → V) :
    ∀ (l : List A) (d0 : Dict K V) (k : K),
      dictGet? (l.foldl (fun d p => dictInsert d (f p) (g p)) d0) k =
        match (l.filter (fun p => f p = k)).getLast? with
        | some p => some (g p)
        | none => dictGet? d0 k := by
  intro l
  induction l with
  | nil => intro d0 k; simp
  | cons p ps ih =>
    intro d0 k
    simp only [List.foldl_cons, List.filter_cons]
    rw [ih]
    by_cases hp : f p = k
    · simp only [hp, decide_True, if_true, List.getLast?_cons]
      rcases hps : (ps.filter (fun q => decide (f q = k))).getLast? with _ | q
      · simp only [hps, Option.getD_none, dictGet?_insert, hp]
        simp
      · simp only [hps, Option.getD_some]
    · simp only [hp, decide_False, Bool.false_eq_true, if_false]
      rcases hps : (ps.filter (fun q => decide (f q = k))).getLast? with _ | q
      · simp only [hps, dictGet?_insert]
        have : ¬(k = f p) := fun h => hp h.symm
        simp [this]
      · simp only [hps]

/-- Building a dictionary whose inserted keys are distinct and disjoint
from the accumulator appends the entries in order. -/
theorem foldl_dictInsert_eq {K V : Type} [DecidableEq K] :
    ∀ (u : List (K × V)) (acc : Dict K V),
      (u.map Prod.fst).Nodup → (∀ p ∈ u, ∀ q ∈ acc, p.1 ≠ q.1) →
      u.foldl (fun d p => dictInsert d p.1 p.2) acc = acc ++ u := by
  intro u
  induction u with
  | nil => intro acc _ _; simp
  | cons p ps ih =>
    intro acc hnd hdisj
    simp only [List.map_cons, List.nodup_cons] at hnd
    have hins : dictInsert acc p.1 p.2 = acc ++ [p] := by
      unfold dictInsert
      have hany : acc.any (fun q => q.1 = p.1) = false := by
        rw [List.any_eq_false]
        intro q hq
        simp only [decide_eq_true_eq]
        intro h
        exact hdisj p (by simp) q hq h.symm
      simp [hany]
    simp only [List.foldl_cons, hins]
    rw [ih (acc ++ [p]) hnd.2]
    · simp
    · intro r hr q hq
      rcases List.mem_append.mp hq with hq | hq
      · exact hdisj r (by simp [hr]) q hq
      · simp only [List.mem_singleton] at hq
        subst hq
        intro h
        exact hnd.1 (h ▸ List.mem_map_of_mem Prod.fst hr)

/-! ### Deduplication lemmas -/

/-- Membership in the dedup fold: an element is retained iff it was in the
accumulator or in the remaining input. -/
theorem ddAux_mem {α : Type} [DecidableEq α] :
    ∀ (l acc : List α) (x : α), x ∈ ddAux l acc ↔ x ∈ acc ∨ x ∈ l := by
  intro l
  induction l with
  | nil => intro acc x; simp [ddAux]
  | cons y ys ih =>
    intro acc x
    by_cases hy : y ∈ acc
    · simp only [ddAux, hy, if_true, ih]
      constructor
      · rintro (h | h)
        · exact Or.inl h
        · exact Or.inr (by simp [h])
      · rintro (h | h)
        · exact Or.inl h
        · rcases List.mem_cons.mp h with h | h
          · exact Or.inl (h ▸ hy)
          · exact Or.inr h
    · simp only [ddAux, hy, if_false, ih]
      constructor
      · rintro (h | h)
        · rcases List.mem_append.mp h with h | h
          · exact Or.inl h
          · simp only [List.mem_singleton] at h
            exact Or.inr (by simp [h])
        · exact Or.inr (by simp [h])
      · rintro (h | h)
        · exact Or.inl (List.mem_append.mpr (Or.inl h))
        · rcases List.mem_cons.mp h with h | h
          · exact Or.inl (by simp [h])
          · exact Or.inr h

/-- The dedup fold preserves distinctness of the accumulator. -/
theorem ddAux_nodup {α : Type} [DecidableEq α] :
    ∀ (l acc : List α), acc.Nodup → (ddAux l acc).Nodup := by
  intro l
  induction l with
  | nil => intro acc h; exact h
  | cons y ys ih =>
    intro acc h
    by_cases hy : y ∈ acc
    · simp only [ddAux, hy, if_true]
      exact ih acc h
    · simp only [ddAux, hy, if_false]
      refine ih (acc ++ [y]) ?_
      rw [List.nodup_append]
      exact ⟨h, List.nodup_singleton y, by
        intro a ha hb
        simp only [List.mem_singleton] at hb
        exact hy (hb ▸ ha)⟩

/-- The dedup fold on an input of distinct elements disjoint from the
accumulator just appends it. -/
theorem ddAux_eq_append {α : Type} [DecidableEq α] :
    ∀ (l acc : List α), l.Nodup → (∀ x ∈ l, x ∉ acc) → ddAux l acc = acc ++ l := by
  intro l
  induction l with
  | nil => intro acc _ _; simp [ddAux]
  | cons y ys ih =>
    intro acc hnd hdisj
    rw [List.nodup_cons] at hnd
    have hy : y ∉ acc := hdisj y (by simp)
    simp only [ddAux, hy, if_false]
    rw [ih (acc ++ [y]) hnd.2]
    · simp
    · intro x hx
      rw [List.mem_append]
      rintro (h | h)
      · exact hdisj x (by simp [hx]) h
      · simp only [List.mem_singleton] at h
        exact hnd.1 (h ▸ hx)

/-- The model of `drop_duplicates` yields pairwise-distinct rows. -/
theorem dropDuplicates_nodup {α : Type} [DecidableEq α] (l : List α) :
    (dropDuplicates l).Nodup :=
  ddAux_nodup l [] List.nodup_nil

/-- The model of `drop_duplicates` leaves an already-deduplicated list unchanged. -/
theorem dropDuplicates_eq_self {α : Type} [DecidableEq α] (l : List α) (h : l.Nodup) :
    dropDuplicates l = l := by
  unfold dropDuplicates
  rw [ddAux_eq_append l [] h (by intro x _; simp)]
  simp

/-- The model of `drop_duplicates` is idempotent. -/
theorem dropDuplicates_idem {α : Type} [DecidableEq α] (l : List α) :
    dropDuplicates (dropDuplicates l) = dropDuplicates l :=
  dropDuplicates_eq_self _ (dropDuplicates_nodup l)

/-- In a duplicate-free list, `findIdx?` of the value at index `i` reports
exactly `i` (shifted by the running offset). -/
theorem findIdx?_of_nodup {α : Type} [DecidableEq α] :
    ∀ (l : List α) (i j : ℕ) (c : α), l.Nodup → l[i]? = some c →
      l.findIdx? (fun v => v = c) j = some (i + j) := by
  intro l
  induction l with
  | nil => intro i j c _ h; simp at h
  | cons x xs ih =>
    intro i j c hnd hi
    rw [List.nodup_cons] at hnd
    cases i with
    | zero =>
      simp only [List.getElem?_cons_zero, Option.some.injEq] at hi
      subst hi
      simp [List.findIdx?_cons]
    | succ i =>
      simp only [List.getElem?_cons_succ] at hi
      have hc : c ∈ xs := by
        rw [List.getElem?_eq_some] at hi
        obtain ⟨h, hh⟩ := hi
        exact hh ▸ List.getElem_mem h
      have hx : ¬(x = c) := fun h => hnd.1 (h ▸ hc)
      rw [List.findIdx?_cons]
      simp only [hx, decide_False, Bool.false_eq_true, if_false]
      rw [ih i (j + 1) c hnd.2 hi]
      simp only [Option.some.injEq]
      omega

/-! ### Decimal print/parse round trip -/

/-- The character of a small digit is a digit character. -/
theorem isPyDigit_digitChar (n : ℕ) (h : n < 10) : isPyDigit (digitChar n) = true := by
  interval_cases n <;> decide

/-- Parsing the character of a small digit recovers the digit. -/
theorem digitVal_digitChar (n : ℕ) (h : n < 10) : digitVal (digitChar n) = n := by
  interval_cases n <;> decide

/-- A digit character is not whitespace. -/
theorem not_space_of_digit (c : Char) (h : isPyDigit c = true) : isPySpace c = false := by
  simp only [isPyDigit, Bool.and_eq_true, decide_eq_true_eq] at h
  simp only [isPySpace, Bool.or_eq_false_iff, decide_eq_false_iff_not]
  omega

/-- A digit character is not a minus sign. -/
theorem digit_ne_minus (c : Char) (h : isPyDigit c = true) : ¬(c = '-') := by
  intro hc
  subst hc
  simp [isPyDigit] at h

/-- A digit character is not a plus sign. -/
theorem digit_ne_plus (c : Char) (h : isPyDigit c = true) : ¬(c = '+') := by
  intro hc
  subst hc
  simp [isPyDigit] at h

/-- Unfolding of the scan on an empty input with a clear flag. -/
theorem digitsVal_nil (acc : ℕ) : digitsVal acc false [] = some acc := rfl

/-- Unfolding of the scan on a leading digit character. -/
theorem digitsVal_cons_digit (acc : ℕ) (b : Bool) (c : Char) (cs : List Char)
    (h : isPyDigit c = true) :
    digitsVal acc b (c :: cs) = digitsVal (10 * acc + digitVal c) false cs := by
  simp [digitsVal, h]

/-- Extending a successful digit scan with further characters continues the
scan from the accumulated value (with the underscore flag cleared, since a
successful scan cannot end on an underscore). -/
theorem digitsVal_append :
    ∀ (xs : List Char) (acc : ℕ) (b : Bool) (m : ℕ) (ys : List Char),
      digitsVal acc b xs = some m → digitsVal acc b (xs ++ ys) = digitsVal m false ys := by
  intro xs
  induction xs with
  | nil =>
    intro acc b m ys h
    cases b with
    | false =>
      simp only [digitsVal, if_false] at h
      cases h
      simp
    | true => simp [digitsVal] at h
  | cons c cs ih =>
    intro acc b m ys h
    simp only [digitsVal] at h
    simp only [List.cons_append, digitsVal]
    by_cases hd : isPyDigit c = true
    · simp only [hd, if_true] at h ⊢
      exact ih _ _ _ _ h
    · simp only [hd, if_false] at h ⊢
      by_cases hu : (c = '_' && !b) = true
      · simp only [hu, if_true] at h ⊢
        exact ih _ _ _ _ h
      · simp only [hu, if_false] at h
        cases h

/-- All characters produced by `natStrAux` are digits, and the output is
nonempty, whenever the fuel exceeds the number. -/
theorem natStrAux_digits :
    ∀ (fuel n : ℕ), n < fuel →
      natStrAux fuel n ≠ [] ∧ ∀ c ∈ natStrAux fuel n, isPyDigit c = true := by
  intro fuel
  induction fuel with
  | zero => intro n h; omega
  | succ fuel ih =>
    intro n _
    by_cases h10 : n < 10
    · simp only [natStrAux, h10, if_true]
      refine ⟨by simp, ?_⟩
      intro c hc
      simp only [List.mem_singleton] at hc
      exact hc ▸ isPyDigit_digitChar n h10
    · simp only [natStrAux, h10, if_false]
      have hdiv : n / 10 < fuel := by
        have := Nat.div_lt_self (by omega : 0 < n) (by omega : 1 < 10)
        omega
      obtain ⟨hne, hall⟩ := ih (n / 10) hdiv
      refine ⟨by simp, ?_⟩
      intro c hc
      rcases List.mem_append.mp hc with hc | hc
      · exact hall c hc
      · simp only [List.mem_singleton] at hc
        exact hc ▸ isPyDigit_digitChar (n % 10) (Nat.mod_lt n (by omega))

/-- Scanning the decimal digits of `n` appends `n` to the accumulated value
shifted by the number of digits. -/
theorem natStrAux_val :
    ∀ (fuel n acc : ℕ), n < fuel →
      ∃ k, 0 < k ∧ digitsVal acc false (natStrAux fuel n) = some (acc * 10 ^ k + n) := by
  intro fuel
  induction fuel with
  | zero => intro n acc h; omega
  | succ fuel ih =>
    intro n acc _
    by_cases h10 : n < 10
    · refine ⟨1, by omega, ?_⟩
      have harm : natStrAux (fuel + 1) n = [digitChar n] := by
        simp [natStrAux, h10]
      rw [harm, digitsVal_cons_digit _ _ _ _ (isPyDigit_digitChar n h10),
        digitVal_digitChar n h10, digitsVal_nil]
      congr 1
      ring
    · have hdiv : n / 10 < fuel := by
        have := Nat.div_lt_self (by omega : 0 < n) (by omega : 1 < 10)
        omega
      obtain ⟨k, hk, hval⟩ := ih (n / 10) acc hdiv
      refine ⟨k + 1, by omega, ?_⟩
      have harm : natStrAux (fuel + 1) n = natStrAux fuel (n / 10) ++ [digitChar (n % 10)] := by
        simp [natStrAux, h10]
      have hm : n % 10 < 10 := Nat.mod_lt n (by omega)
      rw [harm, digitsVal_append _ _ _ _ _ hval,
        digitsVal_cons_digit _ _ _ _ (isPyDigit_digitChar (n % 10) hm),
        digitVal_digitChar (n % 10) hm, digitsVal_nil]
      congr 1
      rw [pow_succ]
      have hdm := Nat.div_add_mod n 10
      nlinarith [hdm]

/-- The decimal print of a natural number is nonempty and all digits. -/
theorem natStr_digits (n : ℕ) :
    natStr n ≠ [] ∧ ∀ c ∈ natStr n, isPyDigit c = true :=
  natStrAux_digits (n + 1) n (by omega)

/-- Parsing the decimal print of a natural number recovers it. -/
theorem pyIntCore_natStr (n : ℕ) : pyIntCore (natStr n) = some n := by
  obtain ⟨hne, hall⟩ := natStr_digits n
  obtain ⟨k, _, hval⟩ := natStrAux_val (n + 1) n 0 (by omega)
  have hval' : digitsVal 0 false (natStr n) = some n := by
    unfold natStr
    rw [hval]
    simp
  rcases hl : natStr n with _ | ⟨c, cs⟩
  · exact absurd hl hne
  · have hd : isPyDigit c = true := hall c (by rw [hl]; simp)
    rw [hl] at hval'
    simp only [pyIntCore, hd, if_true]
    exact hval'

/-- Stripping surrounding whitespace from a nonempty all-non-space list is
the identity. -/
theorem strip_of_no_space (l : List Char) (hne : l ≠ [])
    (h : ∀ c ∈ l, isPySpace c = false) :
    ((l.dropWhile isPySpace).reverse.dropWhile isPySpace).reverse = l := by
  rcases l with _ | ⟨c, cs⟩
  · exact absurd rfl hne
  · rw [List.dropWhile_cons]
    simp only [h c (by simp), Bool.false_eq_true, if_false]
    rcases hrev : (c :: cs).reverse with _ | ⟨d, ds⟩
    · rw [List.reverse_eq_nil_iff] at hrev
      cases hrev
    · have hd : d ∈ (c :: cs) := by
        rw [← List.mem_reverse, hrev]
        simp
      rw [List.dropWhile_cons]
      simp only [h d hd, Bool.false_eq_true, if_false]
      rw [← hrev, List.reverse_reverse]

/-- Python `int` inverts Python `str` on every integer. -/
theorem pyInt_pyStr (c : Int) : pyInt (pyStr c) = some c := by
  by_cases hc : c < 0
  · have hdig := natStr_digits c.natAbs
    have hstr : pyStr c = ⟨'-' :: natStr c.natAbs⟩ := by
      simp [pyStr, hc]
    have hdata : (pyStr c).data = '-' :: natStr c.natAbs := by
      rw [hstr]
    have hstrip : (((pyStr c).data.dropWhile isPySpace).reverse.dropWhile
        isPySpace).reverse = '-' :: natStr c.natAbs := by
      rw [hdata]
      refine strip_of_no_space _ (by simp) ?_
      intro x hx
      rcases List.mem_cons.mp hx with hx | hx
      · subst hx; decide
      · exact not_space_of_digit x (hdig.2 x hx)
    rw [pyInt, hstrip]
    simp only [pyIntSigned, if_true, reduceIte]
    rw [pyIntCore_natStr]
    have hred : ((some c.natAbs).map (fun n => -(n : Int)) : Option Int)
        = some (-(c.natAbs : Int)) := rfl
    rw [hred]
    congr 1
    omega
  · have hdig := natStr_digits c.toNat
    have hdata : (pyStr c).data = natStr c.toNat := by
      simp [pyStr, hc]
    have hstrip : (((pyStr c).data.dropWhile isPySpace).reverse.dropWhile
        isPySpace).reverse = natStr c.toNat := by
      rw [hdata]
      refine strip_of_no_space _ hdig.1 ?_
      intro x hx
      exact not_space_of_digit x (hdig.2 x hx)
    rw [pyInt, hstrip]
    rcases hl : natStr c.toNat with _ | ⟨d, ds⟩
    · exact absurd hl hdig.1
    · have hd : isPyDigit d = true := hdig.2 d (by rw [hl]; simp)
      simp only [pyIntSigned, digit_ne_minus d hd, if_false, digit_ne_plus d hd]
      rw [← hl, pyIntCore_natStr]
      have hred : ((some c.toNat).map (fun n => (n : Int)) : Option Int)
          = some ((c.toNat : ℕ) : Int) := rfl
      rw [hred]
      congr 1
      exact Int.toNat_of_nonneg (by omega)

/-! ### numpy reduction lemmas -/

/-- A fold by a NaN-absorbing operation yields NaN as soon as the seed or
any element is NaN. -/
theorem foldl_cell_none (f : Cell → Cell → Cell)
    (h1 : ∀ s, f s none = none) (h2 : ∀ t, f none t = none) :
    ∀ (l : List Cell) (s : Cell), (none ∈ l ∨ s = none) → l.foldl f s = none := by
  intro l
  induction l with
  | nil =>
    intro s hs
    rcases hs with hs | hs
    · simp at hs
    · simpa using hs
  | cons x xs ih =>
    intro s hs
    rcases hs with hs | hs
    · rcases List.mem_cons.mp hs with hx | hx
      · subst hx
        exact ih (f s none) (Or.inr (h1 s))
      · exact ih (f s x) (Or.inl hx)
    · subst hs
      exact ih (f none x) (Or.inr (h2 x))

/-- The model of `np.sum` propagates a NaN entry. -/
theorem npSum_none (l : List Cell) (h : none ∈ l) : npSum l = none := by
  unfold npSum
  refine foldl_cell_none cellAdd ?_ ?_ l (some 0) (Or.inl h)
  · intro s; cases s <;> rfl
  · intro t; cases t <;> rfl

/-- The model of `np.mean` propagates a NaN entry. -/
theorem npMean_none (l : List Cell) (h : none ∈ l) : npMean l = none := by
  unfold npMean
  have hlen : l.length ≠ 0 := by
    intro h0
    rw [List.length_eq_zero] at h0
    subst h0
    simp at h
  simp [hlen, npSum_none l h]

/-- The model of `np.max` propagates a NaN entry. -/
theorem npMax_none (l : List Cell) (h : none ∈ l) : npMax l = none := by
  rcases l with _ | ⟨x, xs⟩
  · simp at h
  · have habs1 : ∀ s, cellMax s none = none := by intro s; cases s <;> rfl
    have habs2 : ∀ t, cellMax none t = none := by intro t; cases t <;> rfl
    rcases List.mem_cons.mp h with hx | hx
    · exact foldl_cell_none cellMax habs1 habs2 xs x (Or.inr hx.symm)
    · exact foldl_cell_none cellMax habs1 habs2 xs x (Or.inl hx)

/-- The model of `np.min` propagates a NaN entry. -/
theorem npMin_none (l : List Cell) (h : none ∈ l) : npMin l = none := by
  rcases l with _ | ⟨x, xs⟩
  · simp at h
  · have habs1 : ∀ s, cellMin s none = none := by intro s; cases s <;> rfl
    have habs2 : ∀ t, cellMin none t = none := by intro t; cases t <;> rfl
    rcases List.mem_cons.mp h with hx | hx
    · exact foldl_cell_none cellMin habs1 habs2 xs x (Or.inr hx.symm)
    · exact foldl_cell_none cellMin habs1 habs2 xs x (Or.inl hx)

/-- Dropping NaN cells commutes with extracting the present values: the
present values of the filtered list are those of the original. -/
theorem filterMap_id_filter (l : List Cell) :
    (l.filter (fun c => c.isSome)).filterMap id = l.filterMap id := by
  induction l with
  | nil => rfl
  | cons x xs ih =>
    cases x with
    | none => simpa using ih
    | some v => simpa using ih

/-- A filterMap that sends NaN to `none` is unchanged by first dropping the
NaN cells. -/
theorem filterMap_of_filter (g : Cell → Option ℚ) (hg : g none = none) (l : List Cell) :
    (l.filter (fun c => c.isSome)).filterMap g = l.filterMap g := by
  induction l with
  | nil => rfl
  | cons x xs ih =>
    cases x with
    | none => simpa [hg] using ih
    | some v =>
      simp only [List.filter_cons, Option.isSome_some, if_true, List.filterMap_cons]
      rw [ih]

/-- The model of `np.nanmean` is insensitive to NaN entries. -/
theorem npNanMean_filter (l : List Cell) :
    npNanMean (l.filter (fun c => c.isSome)) = npNanMean l := by
  unfold npNanMean
  rw [filterMap_id_filter]

/-- The model of `np.nansum` is insensitive to NaN entries. -/
theorem npNanSum_filter (l : List Cell) :
    npNanSum (l.filter (fun c => c.isSome)) = npNanSum l := by
  unfold npNanSum
  rw [filterMap_id_filter]

/-- The model of `np.nanmax` is insensitive to NaN entries. -/
theorem npNanMax_filter (l : List Cell) :
    npNanMax (l.filter (fun c => c.isSome)) = npNanMax l := by
  unfold npNanMax
  rw [filterMap_id_filter]

/-- The model of `np.nanmin` is insensitive to NaN entries. -/
theorem npNanMin_filter (l : List Cell) :
    npNanMin (l.filter (fun c => c.isSome)) = npNanMin l := by
  unfold npNanMin
  rw [filterMap_id_filter]

/-- The `> 500` mask is insensitive to NaN entries. -/
theorem over500_filter (sd : List (List Cell)) :
    over500 (sd.map (fun r => r.filter (fun c => c.isSome))) = over500 sd := by
  unfold over500
  rw [← List.filter_flatten]
  exact filterMap_of_filter _ rfl sd.flatten

/-- The mask keeps nothing iff every present value is at most the
threshold. -/
theorem over500_eq_nil (sd : List (List Cell)) :
    over500 sd = [] ↔ ∀ r ∈ sd, ∀ q : ℚ, some q ∈ r → q ≤ 500 := by
  unfold over500
  rw [List.filterMap_eq_nil_iff]
  constructor
  · intro h r hr q hq
    have := h (some q) (List.mem_flatten.mpr ⟨r, hr, hq⟩)
    simp only at this
    by_contra hgt
    rw [if_pos (not_le.mp hgt)] at this
    cases this
  · intro h a ha
    rcases a with _ | q
    · rfl
    · obtain ⟨r, hr, hq⟩ := List.mem_flatten.mp ha
      have := h r hr q hq
      show (if 500 < q then some q else none) = none
      rw [if_neg (not_lt.mpr this)]
  
/-- The model of `np.median` of a nonempty list is an actual value, not NaN. -/
theorem npMedian_isSome (l : List ℚ) (h : l ≠ []) : ∃ m, npMedian l = some m := by
  unfold npMedian
  have hlen : l.length ≠ 0 := by
    intro h0
    exact h (List.length_eq_zero.mp h0)
  have hslen : (l.mergeSort (fun a b => a ≤ b)).length = l.length :=
    List.length_mergeSort l
  by_cases hodd : l.length % 2 = 1
  · have hidx : l.length / 2 < (l.mergeSort (fun a b => a ≤ b)).length := by
      rw [hslen]
      omega
    refine ⟨(l.mergeSort (fun a b => a ≤ b))[l.length / 2], ?_⟩
    simp [hlen, hodd, List.getElem?_eq_getElem hidx]
  · have hidx1 : l.length / 2 - 1 < (l.mergeSort (fun a b => a ≤ b)).length := by
      rw [hslen]
      omega
    have hidx2 : l.length / 2 < (l.mergeSort (fun a b => a ≤ b)).length := by
      rw [hslen]
      omega
    refine ⟨((l.mergeSort (fun a b => a ≤ b))[l.length / 2 - 1]
      + (l.mergeSort (fun a b => a ≤ b))[l.length / 2]) / 2, ?_⟩
    simp [hlen, hodd, List.getElem?_eq_getElem hidx1, List.getElem?_eq_getElem hidx2]

/-! ### Message separation for the two `ValueError`s of the lookup -/

/-- The coercion failure message starts with `i`. -/
theorem intErrMsg_head (s : String) : (intErrMsg s).data.head? = some 'i' := rfl

/-- The custom lookup failure message starts with `V`. -/
theorem lookupFailMsg_head : lookupFailMsg.data.head? = some 'V' := rfl

/-- The two `ValueError` messages of the lookup are distinct. -/
theorem intErrMsg_ne_lookupFailMsg (s : String) : intErrMsg s ≠ lookupFailMsg := by
  intro h
  have h2 := congrArg (fun t : String => t.data.head?) h
  simp only [intErrMsg_head, lookupFailMsg_head] at h2
  exact absurd h2 (by decide)

/-! ### Claims about `look_up_school` -/

/-- Claim C1: for every string identifier, resolution first tries an exact
case-sensitive match against the name-to-code dictionary; only if that
fails is the identifier coerced with `int()` and matched against the
code-to-name dictionary; a matched identifier yields the (name, code)
pair, and otherwise — including when the numeric coercion itself fails —
the lookup raises a `ValueError` (the error the spec names
`LookupError`). -/
theorem claim_C1_resolution_order (d1 : Dict String Int) (d2 : Dict Int String) (s : String) :
    (∀ c : Int, dictGet? d1 s = some c → look_up_school d1 d2 s = .ok (s, c)) ∧
    (dictGet? d1 s = none → pyInt s = none →
      ∃ m, look_up_school d1 d2 s = .error (.valueError m)) ∧
    (∀ (n : Int) (nm : String), dictGet? d1 s = none → pyInt s = some n →
      dictGet? d2 n = some nm → look_up_school d1 d2 s = .ok (nm, n)) ∧
    (∀ n : Int, dictGet? d1 s = none → pyInt s = some n → dictGet? d2 n = none →
      ∃ m, look_up_school d1 d2 s = .error (.valueError m)) := by
  refine ⟨?_, ?_, ?_, ?_⟩
  · intro c hc
    simp [look_up_school, hc]
  · intro h1 h2
    exact ⟨intErrMsg s, by simp [look_up_school, h1, h2]⟩
  · intro n nm h1 h2 h3
    simp [look_up_school, h1, h2, h3]
  · intro n h1 h2 h3
    exact ⟨lookupFailMsg, by simp [look_up_school, h1, h2, h3]⟩

/-- A small concrete index used to instantiate the lookup claims. -/
def demoNames : Dict String Int := [("Alpha High", 101), ("Beta High", 202)]

/-- The inverse direction of `demoNames`. -/
def demoCodes : Dict Int String := [(101, "Alpha High"), (202, "Beta High")]

/-- Witness for C1: each of the four resolution cases realized on the
concrete demo index. -/
theorem claim_C1_witness :
    look_up_school demoNames demoCodes "Alpha High" = .ok ("Alpha High", 101) ∧
    (∃ m, look_up_school demoNames demoCodes "zz" = .error (.valueError m)) ∧
    look_up_school demoNames demoCodes "202" = .ok ("Beta High", 202) ∧
    (∃ m, look_up_school demoNames demoCodes "999" = .error (.valueError m)) := by
  refine ⟨?_, ?_, ?_, ?_⟩
  · exact (claim_C1_resolution_order demoNames demoCodes "Alpha High").1 101 (by decide)
  · exact (claim_C1_resolution_order demoNames demoCodes "zz").2.1 (by decide) (by decide)
  · exact (claim_C1_resolution_order demoNames demoCodes "202").2.2.1 202 "Beta High"
      (by decide) (by decide) (by decide)
  · exact (claim_C1_resolution_order demoNames demoCodes "999").2.2.2 999
      (by decide) (by decide) (by decide)

/-- Claim C10: the lookup either returns a (name, code) pair or raises a
`ValueError` — no other exception type escapes; a non-numeric string that
is not a name fails inside the coercion with `int()`'s own message (which
differs from the custom message), while the custom message is raised
exactly for identifiers that coerce to a number absent from the codes. -/
theorem claim_C10_valueerror_only (d1 : Dict String Int) (d2 : Dict Int String) (s : String) :
    ((∃ p, look_up_school d1 d2 s = .ok p) ∨
      (∃ m, look_up_school d1 d2 s = .error (.valueError m))) ∧
    (dictGet? d1 s = none → pyInt s = none →
      look_up_school d1 d2 s = .error (.valueError (intErrMsg s)) ∧
        intErrMsg s ≠ lookupFailMsg) ∧
    (∀ n : Int, dictGet? d1 s = none → pyInt s = some n → dictGet? d2 n = none →
      look_up_school d1 d2 s = .error (.valueError lookupFailMsg)) := by
  refine ⟨?_, ?_, ?_⟩
  · rcases hd1 : dictGet? d1 s with _ | c
    · rcases hpi : pyInt s with _ | n
      · exact Or.inr ⟨intErrMsg s, by simp [look_up_school, hd1, hpi]⟩
      · rcases hd2 : dictGet? d2 n with _ | nm
        · exact Or.inr ⟨lookupFailMsg, by simp [look_up_school, hd1, hpi, hd2]⟩
        · exact Or.inl ⟨(nm, n), by simp [look_up_school, hd1, hpi, hd2]⟩
    · exact Or.inl ⟨(s, c), by simp [look_up_school, hd1]⟩
  · intro h1 h2
    exact ⟨by simp [look_up_school, h1, h2], intErrMsg_ne_lookupFailMsg s⟩
  · intro n h1 h2 h3
    simp [look_up_school, h1, h2, h3]

/-- Witness for C10: the coercion-failure message and the custom message
cases realized on the concrete demo index. -/
theorem claim_C10_witness :
    (look_up_school demoNames demoCodes "wxyz" = .error (.valueError (intErrMsg "wxyz")) ∧
      intErrMsg "wxyz" ≠ lookupFailMsg) ∧
    look_up_school demoNames demoCodes "777" = .error (.valueError lookupFailMsg) := by
  refine ⟨(claim_C10_valueerror_only demoNames demoCodes "wxyz").2.1 (by decide) (by decide),
    (claim_C10_valueerror_only demoNames demoCodes "777").2.2 777
      (by decide) (by decide) (by decide)⟩

/-! ### Claims about construction (`SchoolData.__init__`) -/

/-- Ten rows of sixty zero cells: a well-shaped tensor input. -/
def zeroRows10 : List (List Cell) := List.replicate 10 (List.replicate 60 (some 0))

set_option maxRecDepth 8000 in
/-- Counterexample to C4 as stated: the school table below has exactly one
unique school, not 20, yet `SchoolData` construction succeeds — no
`ConsistencyError` (nor any other check against the school count) exists in
the constructor. -/
theorem claim_C4_counterexample :
    (mkSchoolData zeroRows10 [("Only School", 1)]).isOk = true := by decide

/-- Claim C4 amended: construction never validates the school table; it
succeeds or fails exactly as the tensor reshape does, whatever the number
of unique schools in the table. -/
theorem claim_C4_no_consistency_check (rows : List (List Cell)) (tbl : List (String × Int)) :
    (mkSchoolData rows tbl).isOk = (npArrayReshape rows).isOk := by
  unfold mkSchoolData
  cases npArrayReshape rows <;> rfl

set_option maxRecDepth 8000 in
/-- Counterexample to C5 as stated: a single row of 600 values is not
10 rows of 60, yet `np.array(data).reshape((10, 20, 3))` succeeds, because
only the total element count is checked. -/
theorem claim_C5_counterexample :
    (mkSchoolData [List.replicate 600 (some 0)] []).isOk = true := by decide

/-- Claim C5 amended: tensor construction fails exactly when the rows are
ragged (`np.array` raises) or the total element count differs from 600
(`reshape` raises); any rectangular input with 600 cells is accepted,
whatever its row count. -/
theorem claim_C5_size_check (rows : List (List Cell)) :
    (npArrayReshape rows).isOk = true ↔
      (∀ r ∈ rows, r.length = (rows.headD []).length) ∧
        (rows.map List.length).sum = 600 := by
  rcases rows with _ | ⟨r, rs⟩
  · constructor
    · intro h
      exact absurd h (by decide)
    · rintro ⟨_, hsum⟩
      simp at hsum
  · unfold npArrayReshape
    simp only [npArray2]
    by_cases hall : rs.all (fun x => x.length = r.length) = true
    · rw [if_pos hall]
      show (reshape600 ((r :: rs).flatten)).isOk = true ↔ _
      have hflat : ((r :: rs).flatten).length = ((r :: rs).map List.length).sum :=
        List.length_flatten _
      unfold reshape600
      by_cases hlen : ((r :: rs).flatten).length = 600
      · rw [if_pos hlen]
        constructor
        · intro _
          refine ⟨?_, by rw [← hflat]; exact hlen⟩
          intro x hx
          rcases List.mem_cons.mp hx with hx | hx
          · rw [hx]
            rfl
          · simpa using (List.all_eq_true.mp hall) x hx
        · intro _
          rfl
      · rw [if_neg hlen]
        constructor
        · intro h
          exact absurd h (by decide)
        · rintro ⟨_, hsum⟩
          exact absurd (hflat.trans hsum) hlen
    · rw [if_neg hall]
      constructor
      · intro h
        exact absurd h (by decide)
      · rintro ⟨hrect, _⟩
        exfalso
        apply hall
        rw [List.all_eq_true]
        intro x hx
        simpa using hrect x (by simp [hx])

set_option maxRecDepth 8000 in
/-- Witness for C5: the amended criterion accepts the well-shaped zero
tensor input. -/
theorem claim_C5_witness : (npArrayReshape zeroRows10).isOk = true :=
  (claim_C5_size_check zeroRows10).mpr (by decide)

/-! ### Claims about the statistics functions -/

/-- A zero-valued (10, 3) school slice. -/
def zeroSlice : List (List Cell) := List.replicate 10 (List.replicate 3 (some 0))

/-- Counterexample to C2 as stated: on a slice with no value above 500,
`median_over_500` does not fail — `np.median` of the empty selection
returns NaN (modelled `none`) with only a RuntimeWarning, so the call
returns normally and no `EmptySetError` (nor any exception) is raised. -/
theorem claim_C2_counterexample :
    median_over_500 zeroSlice = Except.ok none := rfl

/-- Claim C2 amended: `median_over_500` never raises; it returns the NaN
value (`none`) exactly when no present cell value exceeds 500 — the
situation the spec calls `EmptySetError` — and an actual median value as
soon as some cell value strictly exceeds 500 (values equal to 500, and
missing cells, are excluded by the strict mask). -/
theorem claim_C2_median_over_500 (sd : List (List Cell)) :
    (median_over_500 sd).isOk = true ∧
    ((∀ r ∈ sd, ∀ q : ℚ, some q ∈ r → q ≤ 500) → median_over_500 sd = .ok none) ∧
    (∀ r ∈ sd, ∀ q : ℚ, some q ∈ r → 500 < q → ∃ m, median_over_500 sd = .ok (some m)) := by
  refine ⟨rfl, ?_, ?_⟩
  · intro h
    unfold median_over_500
    rw [(over500_eq_nil sd).mpr h]
    rfl
  · intro r hr q hq hgt
    have hne : over500 sd ≠ [] := by
      intro h0
      have := (over500_eq_nil sd).mp h0 r hr q hq
      linarith
    obtain ⟨m, hm⟩ := npMedian_isSome (over500 sd) hne
    refine ⟨m, ?_⟩
    unfold median_over_500
    rw [hm]

/-- A slice whose only value above 500 is a single 501. -/
def highSlice : List (List Cell) :=
  [[some 501, some 0, some 0]] ++ List.replicate 9 [some 0, some 0, some 0]

/-- Witness for C2: the NaN case and the genuine-median case realized on
concrete slices. -/
theorem claim_C2_witness :
    (∃ m, median_over_500 highSlice = Except.ok (some m)) ∧
      median_over_500 zeroSlice = Except.ok none := by
  refine ⟨?_, ?_⟩
  · exact (claim_C2_median_over_500 highSlice).2.2 [some 501, some 0, some 0]
      (by decide) 501 (by decide) (by decide)
  · refine (claim_C2_median_over_500 zeroSlice).2.1 ?_
    intro r hr q hq
    have hr2 : r = [some 0, some 0, some 0] := by
      simpa [zeroSlice, List.mem_replicate] using hr
    subst hr2
    have hq2 : q = 0 := by simpa using hq
    rw [hq2]
    norm_num

/-- Claim C9: for every (10, 3) school slice, the sum of the ten per-year
totals equals the ten-year total exactly, and the mean total enrollment is
the ten-year total divided by 10 (a NaN total giving a NaN mean). -/
theorem claim_C9_total_relations (sd : List (List Cell))
    (h10 : sd.length = 10) (h3 : ∀ r ∈ sd, r.length = 3) :
    npSum (school_enrol_tot_per_year sd) = school_tot_ten_year sd ∧
    mean_tot_enrol sd = (school_tot_ten_year sd).map (fun q => q / 10) := by
  constructor
  · rfl
  · unfold mean_tot_enrol school_tot_ten_year npMean
    have hlen : (school_enrol_tot_per_year sd).length = 10 := by
      unfold school_enrol_tot_per_year
      rw [List.length_map, h10]
    rw [hlen]
    norm_num

/-- Witness for C9: the relations instantiated on the zero slice. -/
theorem claim_C9_witness :
    npSum (school_enrol_tot_per_year zeroSlice) = school_tot_ten_year zeroSlice ∧
    mean_tot_enrol zeroSlice = (school_tot_ten_year zeroSlice).map (fun q => q / 10) :=
  claim_C9_total_relations zeroSlice (by decide) (by decide)

/-- A school slice with one missing grade-10 cell; the present grade-10
values all equal 4. -/
def missSlice : List (List Cell) :=
  [[none, some 2, some 2],
   [some 4, some 2, some 2], [some 4, some 2, some 2], [some 4, some 2, some 2],
   [some 4, some 2, some 2], [some 4, some 2, some 2], [some 4, some 2, some 2],
   [some 4, some 2, some 2], [some 4, some 2, some 2], [some 4, some 2, some 2]]

/-- Counterexample to C6 as stated: `school_enrol_grade_means` propagates
the missing grade-10 cell — it returns NaN for that grade although the
present grade-10 values have (nan-aware) mean 4, so not every statistics
function excludes missing values. -/
theorem claim_C6_counterexample :
    (school_enrol_grade_means missSlice).1 = none ∧
    npNanMean (sliceCol missSlice 0) = some 4 := by
  constructor
  · decide
  · show npNanMean [none, some 4, some 4, some 4, some 4, some 4, some 4, some 4,
      some 4, some 4] = some 4
    have hfm : (([none, some 4, some 4, some 4, some 4, some 4, some 4, some 4,
        some 4, some 4] : List Cell).filterMap id) = [4, 4, 4, 4, 4, 4, 4, 4, 4] := rfl
    unfold npNanMean
    rw [hfm]
    norm_num [List.sum_cons, List.length_cons]

/-- Claim C6 amended: the dataset-wide statistics (nan-aware reductions)
and the strict median mask exclude missing values — their results are
unchanged when the missing cells are dropped — but the per-slice
reductions (`np.sum`, `np.mean`, `np.max`, `np.min`) propagate a missing
value into their result as NaN instead of excluding it. -/
theorem claim_C6_nan_handling :
    (∀ o : SchoolData, general_stats o = .ok
        (npNanMean ((yearSlice o.data 0).filter (fun c => c.isSome)),
         npNanMean ((yearSlice o.data 9).filter (fun c => c.isSome)),
         npNanSum ((grade12Row9 o.data).filter (fun c => c.isSome)),
         npNanMax (o.data.filter (fun c => c.isSome)),
         npNanMin (o.data.filter (fun c => c.isSome)))) ∧
    (∀ sd : List (List Cell),
        median_over_500 (sd.map (fun r => r.filter (fun c => c.isSome))) =
          median_over_500 sd) ∧
    (∀ l : List Cell, none ∈ l →
        npSum l = none ∧ npMean l = none ∧ npMax l = none ∧ npMin l = none) := by
  refine ⟨?_, ?_, ?_⟩
  · intro o
    unfold general_stats
    rw [npNanMean_filter, npNanMean_filter, npNanSum_filter, npNanMax_filter, npNanMin_filter]
  · intro sd
    unfold median_over_500
    rw [over500_filter]
  · intro l h
    exact ⟨npSum_none l h, npMean_none l h, npMax_none l h, npMin_none l h⟩

/-- Witness for C6: NaN propagation of the per-slice reductions on a
concrete cell list with one missing entry. -/
theorem claim_C6_witness :
    npSum [some 1, none, some 3] = none ∧ npMean [some 1, none, some 3] = none ∧
    npMax [some 1, none, some 3] = none ∧ npMin [some 1, none, some 3] = none :=
  claim_C6_nan_handling.2.2 [some 1, none, some 3] (by decide)

/-! ### Claims about the school index -/

/-- Counterexample to C3 as stated: a table mapping one name to two
different codes; the build succeeds anyway — no `DuplicateCodeError` or
`DuplicateNameError` exists — and the resulting mappings are not a
bijection: the name holds code 2 while code 1 still points back to the
name. -/
theorem claim_C3_counterexample :
    set_schools_and_ids [("A", 1), ("A", 2)] =
      .ok ([("A", 2)], [(1, "A"), (2, "A")]) := rfl

/-- Claim C3 amended: building the index never fails; after first-seen
deduplication of rows, each dictionary is filled by plain assignment, so
for a repeated key the last pair wins and the two mappings need not form a
bijection. -/
theorem claim_C3_last_wins (tbl : List (String × Int)) :
    (set_schools_and_ids tbl).isOk = true ∧
    (∀ nm : String, dictGet? (set_schools_core tbl).1 nm =
        (((dropDuplicates tbl).filter (fun p => p.1 = nm)).getLast?).map Prod.snd) ∧
    (∀ cd : Int, dictGet? (set_schools_core tbl).2 cd =
        (((dropDuplicates tbl).filter (fun p => p.2 = cd)).getLast?).map Prod.fst) := by
  refine ⟨rfl, ?_, ?_⟩
  · intro nm
    show dictGet? ((dropDuplicates tbl).foldl (fun d p => dictInsert d p.1 p.2) []) nm = _
    rw [dictGet?_foldl Prod.fst Prod.snd (dropDuplicates tbl) [] nm]
    rcases h : ((dropDuplicates tbl).filter (fun p => decide (p.1 = nm))).getLast?
      with _ | p <;> rfl
  · intro cd
    show dictGet? ((dropDuplicates tbl).foldl (fun d p => dictInsert d p.2 p.1) []) cd = _
    rw [dictGet?_foldl Prod.snd Prod.fst (dropDuplicates tbl) [] cd]
    rcases h : ((dropDuplicates tbl).filter (fun p => decide (p.2 = cd))).getLast?
      with _ | p <;> rfl

/-- Counterexample to C8 as stated: with table [(A,1), (A,2)] the unique
pair (A,2) first appears at zero-based position 1 among the deduplicated
rows, but code 2 sits at position 0 of the dictionary values (the second
assignment overwrote the value at the name's original position), so the
positional index does not equal the first-seen order. -/
theorem claim_C8_counterexample :
    positionOfCode (set_schools_core [("A", 1), ("A", 2)]).1 2 = Except.ok 0 ∧
    (dropDuplicates [("A", 1), ("A", 2)])[1]? = some ("A", 2) ∧ (0 : ℕ) ≠ 1 := by
  exact ⟨rfl, rfl, by decide⟩

/-- Claim C8 amended: building from a table with duplicate rows always —
for every table, duplicated or conflicted — yields the same mappings as
building from the deduplicated table; and provided each name carries a
single code and each code a single name, the position of a code among the
dictionary values equals the zero-based first-seen index of its
(name, code) pair among the unique rows. -/
theorem claim_C8_dedup_and_position (tbl : List (String × Int)) :
    set_schools_and_ids tbl = set_schools_and_ids (dropDuplicates tbl) ∧
    (∀ (i : ℕ) (n : String) (c : Int),
      ((dropDuplicates tbl).map Prod.fst).Nodup →
      ((dropDuplicates tbl).map Prod.snd).Nodup →
      (dropDuplicates tbl)[i]? = some (n, c) →
      positionOfCode (set_schools_core tbl).1 c = Except.ok i) := by
  constructor
  · unfold set_schools_and_ids set_schools_core
    rw [dropDuplicates_idem]
  · intro i n c hN hC hi
    have hbuild : (set_schools_core tbl).1 = dropDuplicates tbl := by
      show (dropDuplicates tbl).foldl (fun d p => dictInsert d p.1 p.2) [] = dropDuplicates tbl
      rw [foldl_dictInsert_eq (dropDuplicates tbl) [] hN
        (fun p _ q hq => (List.not_mem_nil q hq).elim)]
      rfl
    have hval : (dictValues (set_schools_core tbl).1).findIdx? (fun v => v = c) = some i := by
      rw [hbuild]
      show ((dropDuplicates tbl).map Prod.snd).findIdx? (fun v => v = c) = some i
      have hgi : ((dropDuplicates tbl).map Prod.snd)[i]? = some c := by
        rw [List.getElem?_map, hi]
        rfl
      have := findIdx?_of_nodup ((dropDuplicates tbl).map Prod.snd) i 0 c hC hgi
      simpa using this
    unfold positionOfCode
    rw [hval]

/-- The conflicted two-row table used to exercise the unconditional dedup
clause of C8. -/
def conflictTable : List (String × Int) := [("A", 1), ("A", 2)]

/-- Witness for C8: the dedup clause realized both on the spec's example
table with a duplicated row and on a conflicted table (one name, two
codes), and code 202's position equal to the first-seen index 1 of its
unique pair. -/
theorem claim_C8_witness :
    set_schools_and_ids [("Alpha High", 101), ("Alpha High", 101), ("Beta High", 202)] =
      set_schools_and_ids
        (dropDuplicates [("Alpha High", 101), ("Alpha High", 101), ("Beta High", 202)]) ∧
    set_schools_and_ids conflictTable = set_schools_and_ids (dropDuplicates conflictTable) ∧
    positionOfCode (set_schools_core [("Alpha High", 101), ("Alpha High", 101),
      ("Beta High", 202)]).1 202 = Except.ok 1 :=
  ⟨(claim_C8_dedup_and_position
      [("Alpha High", 101), ("Alpha High", 101), ("Beta High", 202)]).1,
   (claim_C8_dedup_and_position conflictTable).1,
   (claim_C8_dedup_and_position
      [("Alpha High", 101), ("Alpha High", 101), ("Beta High", 202)]).2 1 "Beta High" 202
      (by decide) (by decide) (by decide)⟩

/-- A stored (key, value) pair is returned by lookup when keys are
pairwise distinct. -/
theorem dictGet?_of_nodup {K V : Type} [DecidableEq K] :
    ∀ (d : Dict K V) (k : K) (v : V), (d.map Prod.fst).Nodup → (k, v) ∈ d →
      dictGet? d k = some v := by
  intro d
  induction d with
  | nil => intro k v _ hm; cases hm
  | cons p ps ih =>
    intro k v hnd hm
    simp only [List.map_cons, List.nodup_cons] at hnd
    rcases List.mem_cons.mp hm with hm | hm
    · unfold dictGet?
      rw [List.find?_cons_of_pos _ (by rw [← hm]; simp)]
      rw [← hm]
      rfl
    · have hkey : ¬(p.1 = k) := by
        intro h
        apply hnd.1
        rw [h]
        exact List.mem_map_of_mem Prod.fst hm
      unfold dictGet?
      rw [List.find?_cons_of_neg _ (by simpa using hkey)]
      exact ih k v hnd.2 hm

/-- A successful lookup comes from a stored pair. -/
theorem dictGet?_mem {K V : Type} [DecidableEq K] (d : Dict K V) (k : K) (v : V)
    (h : dictGet? d k = some v) : (k, v) ∈ d := by
  unfold dictGet? at h
  rcases hfind : d.find? (fun p => p.1 = k) with _ | q
  · rw [hfind] at h
    cases h
  · rw [hfind] at h
    have hqm := List.mem_of_find?_eq_some hfind
    have hqp := List.find?_some hfind
    simp only [decide_eq_true_eq] at hqp
    have hv : some q.2 = some v := h
    rw [Option.some.injEq] at hv
    have hq : q = (k, v) := by
      rcases q with ⟨qk, qv⟩
      simp only at hqp hv
      rw [hqp, hv]
    exact hq ▸ hqm

/-- Counterexample to C7 as stated: a successfully built — even bijective —
index holding the name "7" with code 5 and the name "B" with code 7;
resolving str(7) matches the name "7" first and yields ("7", 5), while
resolving the name of code 7 yields ("B", 7): two different pairs. -/
theorem claim_C7_counterexample :
    dictGet? (set_schools_core [("7", 5), ("B", 7)]).2 7 = some "B" ∧
    look_up_school (set_schools_core [("7", 5), ("B", 7)]).1
      (set_schools_core [("7", 5), ("B", 7)]).2 (pyStr 7) = .ok ("7", 5) ∧
    look_up_school (set_schools_core [("7", 5), ("B", 7)]).1
      (set_schools_core [("7", 5), ("B", 7)]).2 "B" = .ok ("B", 7) ∧
    (("7", 5) : String × Int) ≠ ("B", 7) :=
  ⟨rfl, rfl, rfl, by decide⟩

/-- Claim C7 amended: in an index whose two dictionaries have distinct
keys and are mutual inverses, and in which a stored name that spells a
stored code in decimal can only belong to that very code, resolving the
decimal string of a stored code and resolving its name return the same
(name, code) pair. -/
theorem claim_C7_code_roundtrip (d1 : Dict String Int) (d2 : Dict Int String)
    (c : Int) (n : String)
    (h1 : (d1.map Prod.fst).Nodup) (h2 : (d2.map Prod.fst).Nodup)
    (h3 : ∀ p ∈ d1, (p.2, p.1) ∈ d2) (h4 : ∀ p ∈ d2, (p.2, p.1) ∈ d1)
    (hDigit : ∀ p ∈ d2, ∀ q ∈ d1, q.1 = pyStr p.1 → q.2 = p.1)
    (hc : (c, n) ∈ d2) :
    look_up_school d1 d2 (pyStr c) = .ok (n, c) ∧
    look_up_school d1 d2 n = .ok (n, c) := by
  have hd2c : dictGet? d2 c = some n := dictGet?_of_nodup d2 c n h2 hc
  have hnd1 : (n, c) ∈ d1 := h4 (c, n) hc
  have hd1n : dictGet? d1 n = some c := dictGet?_of_nodup d1 n c h1 hnd1
  constructor
  · rcases hg : dictGet? d1 (pyStr c) with _ | c'
    · simp [look_up_school, hg, pyInt_pyStr c, hd2c]
    · have hqm : (pyStr c, c') ∈ d1 := dictGet?_mem d1 (pyStr c) c' hg
      have hc' : c' = c := hDigit (c, n) hc (pyStr c, c') hqm rfl
      subst hc'
      have hnd2 : (c', pyStr c') ∈ d2 := by
        have := h3 (pyStr c', c') hqm
        simpa using this
      have hn_eq : n = pyStr c' := by
        have e1 := dictGet?_of_nodup d2 c' (pyStr c') h2 hnd2
        rw [hd2c] at e1
        exact (Option.some.injEq _ _).mp e1
      rw [hn_eq]
      simp [look_up_school, hg]
  · simp [look_up_school, hd1n]

/-- Witness for C7: the round trip realized for code 202 of the demo
index. -/
theorem claim_C7_witness :
    look_up_school demoNames demoCodes (pyStr 202) = .ok ("Beta High", 202) ∧
    look_up_school demoNames demoCodes "Beta High" = .ok ("Beta High", 202) :=
  claim_C7_code_roundtrip demoNames demoCodes 202 "Beta High" (by decide) (by decide)
    (by decide) (by decide) (by decide) (by decide)
